import Mathlib

/-!
# Verification of `reference-counted-singleton` (src/src/lib.rs)

The crate defines `RefCountedSingleton<T>(Mutex<Option<Arc<T>>>)` together
with the handle type `RCSRef<'t, T> { data: ManuallyDrop<Arc<T>>, rcs }` and
the operations `get_or_init`, `get`, `Clone for RCSRef`, `Drop for RCSRef`,
and the forwarding impls `PartialEq`/`Ord`/`Hash`/`Deref` for `RCSRef`.

Shallow embedding: we make the reference-counting heap explicit.  An
`Arc<T>` allocation is a cell holding the protected value, its strong
reference count, and the number of times the protected value's destructor
has run (`drops`, used to state "destroyed exactly once").  A system state
`Sys T` holds the heap (cells addressed by `Nat` ids, fresh ids handed out
from `next`), the container's `Mutex<Option<Arc<T>>>` slot (as `Option Nat`:
the id the stored `Arc` points to, or `none`), the multiset of live `RCSRef`
handles (as the list of arc ids they point to; every `RCSRef` returned by an
operation is appended, every dropped one removed), and whether the mutex is
poisoned.  An `RCSRef` is identified by the arc id its `data` field points
to; its `rcs` back-reference is implicit because one container is modelled.

Lock acquisition is modelled by the `poisoned` test: `Mutex::lock` succeeds
exactly when the mutex is not poisoned (blocking is invisible to a
sequential embedding), and these operations are the only lock holders.
-/

set_option autoImplicit false

namespace RCS

/-- One `Arc<T>` allocation: the protected value, its strong reference
count (`Arc::strong_count`), and how many times the protected value's
destructor has run (0 while the value is alive, 1 once it was dropped). -/
structure ArcCell (T : Type) where
  value : T
  strong : Nat
  drops : Nat
deriving DecidableEq, Repr

/-- State of one `RefCountedSingleton<T>` together with the arc heap and
the live `RCSRef` handles pointing into it. -/
structure Sys (T : Type) where
  /-- The arc heap: cell ids to cells.  Ids `≥ next` are unallocated junk. -/
  heap : Nat → ArcCell T
  /-- Next fresh arc id. -/
  next : Nat
  /-- The `Mutex<Option<Arc<T>>>` contents: id of the stored arc, if any. -/
  slot : Option Nat
  /-- Arc ids held by the live `RCSRef` handles, in creation order. -/
  handles : List Nat
  /-- Whether the mutex is poisoned. -/
  poisoned : Bool

/-- Pointwise update of one heap cell. -/
def updateCell {T : Type} (h : Nat → ArcCell T) (i : Nat)
    (f : ArcCell T → ArcCell T) : Nat → ArcCell T :=
  fun j => if j = i then f (h j) else h j

/-- `Arc::new(data)`: allocate a fresh cell with strong count 1. -/
def arcNew {T : Type} (s : Sys T) (v : T) : Nat × Sys T :=
  (s.next,
   { s with
      heap := updateCell s.heap s.next (fun _ => ⟨v, 1, 0⟩)
      next := s.next + 1 })

/-- `Arc::clone`: increment the strong count of cell `i`. -/
def arcClone {T : Type} (s : Sys T) (i : Nat) : Sys T :=
  { s with
     heap := updateCell s.heap i (fun c => { c with strong := c.strong + 1 }) }

/-- Dropping one `Arc` pointing at cell `i`: decrement the strong count;
if this was the last strong reference, the protected value is dropped
(`drops` is incremented).  `Arc::try_unwrap` succeeding on a count of 1
followed by `drop(data)` has the same net effect on the cell. -/
def arcDrop {T : Type} (s : Sys T) (i : Nat) : Sys T :=
  { s with
     heap := updateCell s.heap i (fun c =>
       if c.strong = 1 then { c with strong := 0, drops := c.drops + 1 }
       else { c with strong := c.strong - 1 }) }

/-- `RefCountedSingleton::get_or_init` (src/src/lib.rs:51-85).  The
caller-supplied `creator` closure is represented by its result (a shallow
embedding of `FnOnce() -> Result<T, E>`).  Returns the Rust result
(`Ok` carrying the arc id the returned `RCSRef.data` points to, or
`Err(None)` for a poisoned lock, `Err(Some e)` for a factory failure),
the successor state, and how many times `creator()` was invoked (the
`FnOnce` bound already caps this at one in Rust; the count records whether
the single possible invocation happened). -/
def get_or_init {T E : Type} (s : Sys T) (creator : Except E T) :
    Except (Option E) Nat × Sys T × Nat :=
  if s.poisoned then
    -- `self.0.lock()` returned `Err`: the mutex was poisoned.
    (Except.error none, s, 0)
  else
    match s.slot with
    | none =>
      -- Data is not created: run `creator()`.
      match creator with
      | Except.ok data =>
        -- `let data = Arc::new(data); let data_ref = Arc::clone(&data);`
        let alloc := arcNew s data
        let s2 := arcClone alloc.2 alloc.1
        -- `*value = Some(data)`, and the returned `RCSRef` holds `data_ref`.
        (Except.ok alloc.1,
         { s2 with slot := some alloc.1, handles := s2.handles ++ [alloc.1] },
         1)
      | Except.error err => (Except.error (some err), s, 1)
    | some i =>
      -- Data is already created: return a new reference (`Arc::clone(data)`).
      (Except.ok i,
       { arcClone s i with handles := s.handles ++ [i] },
       0)

/-- `RefCountedSingleton::get` (src/src/lib.rs:91-98): `Some` of a new
reference to the stored data when the lock is usable and the slot is
populated, `None` otherwise. -/
def get {T : Type} (s : Sys T) : Option Nat × Sys T :=
  if s.poisoned then (none, s)
  else
    match s.slot with
    | none => (none, s)
    | some i => (some i, { arcClone s i with handles := s.handles ++ [i] })

/-- `Clone for RCSRef` (src/src/lib.rs:145-152): `Arc::clone(&self.data)`
and the same `rcs` back-reference; the container's mutex is not touched. -/
def cloneRef {T : Type} (s : Sys T) (i : Nat) : Nat × Sys T :=
  (i, { arcClone s i with handles := s.handles ++ [i] })

/-- `Drop for RCSRef` (src/src/lib.rs:154-174) for the live handle at
position `k` of `s.handles`.  First `ManuallyDrop::drop(&mut self.data)`
releases the handle's own counted reference; then, if the lock is usable,
`value.take()` empties the slot and `Arc::try_unwrap` either destroys the
data (no other counted references: count 1) or puts it back. -/
def dropRef {T : Type} (s : Sys T) (k : Nat) : Sys T :=
  match s.handles[k]? with
  | none => s
  | some i =>
    -- `unsafe { ManuallyDrop::drop(&mut self.data) }`
    let s1 := { arcDrop s i with handles := s.handles.eraseIdx k }
    if s1.poisoned then s1
    else
      match s1.slot with
      | none => s1
      | some j =>
        -- `value.take()`
        let s2 := { s1 with slot := none }
        if (s2.heap j).strong = 1 then
          -- `Arc::try_unwrap` succeeded: destroy the singleton.
          arcDrop s2 j
        else
          -- Other counted references exist: put the singleton data back.
          { s2 with slot := some j }

/-- `Deref for RCSRef` (src/src/lib.rs:137-143): the protected value the
handle's `data` arc points to. -/
def derefRef {T : Type} (s : Sys T) (i : Nat) : T :=
  (s.heap i).value

/-- `PartialEq for RCSRef` (src/src/lib.rs:108-112): forwards to `T`'s
equality (`eqT` stands for `<T as PartialEq>::eq`). -/
def refEq {T : Type} (eqT : T → T → Bool) (s : Sys T) (i j : Nat) : Bool :=
  eqT (derefRef s i) (derefRef s j)

/-- `Ord for RCSRef` (src/src/lib.rs:125-129): forwards to `T`'s `cmp`. -/
def refCmp {T : Type} (cmpT : T → T → Ordering) (s : Sys T) (i j : Nat) :
    Ordering :=
  cmpT (derefRef s i) (derefRef s j)

/-- `Hash for RCSRef` (src/src/lib.rs:131-135): forwards to `T`'s hash
(`hashT` stands for the digest `T`'s `hash` feeds into the hasher). -/
def refHash {T : Type} (hashT : T → Nat) (s : Sys T) (i : Nat) : Nat :=
  hashT (derefRef s i)

/-- The representation invariant of a container (claim C10): while handles
are live the slot holds the arc every live handle also holds, with strong
count equal to the number of live handles plus the container's own
reference; with no live handle the slot is empty. -/
def Inv {T : Type} (s : Sys T) : Prop :=
  match s.slot with
  | none => s.handles = []
  | some i =>
    s.handles ≠ [] ∧ (∀ j ∈ s.handles, j = i) ∧
      (s.heap i).strong = s.handles.length + 1

instance instInvDecidable {T : Type} [DecidableEq T] (s : Sys T) :
    Decidable (Inv s) := by
  unfold Inv
  cases s.slot <;> exact inferInstance

/-- A fresh, empty container over `T = Nat` (the `Default` impl,
src/src/lib.rs:38-42) with an empty arc heap. -/
def sEmpty : Sys Nat := ⟨fun _ => ⟨0, 0, 0⟩, 0, none, [], false⟩

/-- An empty container whose mutex is poisoned. -/
def sPoisoned : Sys Nat := { sEmpty with poisoned := true }

/-- The container after one successful `get_or_init` storing 5: one live
handle on arc 0. -/
def sOne : Sys Nat := (get_or_init sEmpty (Except.ok 5 : Except Nat Nat)).2.1

/-- `sOne` after cloning the handle: two live handles on arc 0. -/
def sTwo : Sys Nat := (cloneRef sOne 0).2

theorem updateCell_self {T : Type} (h : Nat → ArcCell T) (i : Nat)
    (f : ArcCell T → ArcCell T) : updateCell h i f i = f (h i) := by
  simp [updateCell]

theorem updateCell_ne {T : Type} (h : Nat → ArcCell T) (i j : Nat)
    (f : ArcCell T → ArcCell T) (hne : j ≠ i) : updateCell h i f j = h j := by
  simp [updateCell, hne]

/-- C1: on an empty, unpoisoned container, `get_or_init` with a succeeding
creator invokes the creator exactly once, stores a shared reference to the
created value in the slot (strong count 2: the container's `Arc` plus the
returned handle's), and returns `Ok` of a handle dereferencing to that
stored value. -/
theorem rcs_c1 {T E : Type} (s : Sys T) (v : T)
    (hslot : s.slot = none) (hp : s.poisoned = false) :
    (get_or_init s (Except.ok v : Except E T)).2.2 = 1 ∧
    (get_or_init s (Except.ok v : Except E T)).1 = Except.ok s.next ∧
    (get_or_init s (Except.ok v : Except E T)).2.1.slot = some s.next ∧
    ((get_or_init s (Except.ok v : Except E T)).2.1.heap s.next).value = v ∧
    ((get_or_init s (Except.ok v : Except E T)).2.1.heap s.next).strong = 2 ∧
    derefRef (get_or_init s (Except.ok v : Except E T)).2.1 s.next = v := by
  simp [get_or_init, hslot, hp, arcNew, arcClone, updateCell, derefRef]

/-- C4: on an empty, unpoisoned container, `get_or_init` with a failing
creator invokes the creator, returns the factory error wrapped as
`Err(Some e)` — distinct from the lock-failure error `Err(None)` — leaves
the container state unchanged (slot still empty), and a subsequent `get`
returns `None`. -/
theorem rcs_c4 {T E : Type} (s : Sys T) (e : E)
    (hslot : s.slot = none) (hp : s.poisoned = false) :
    (get_or_init s (Except.error e : Except E T)).1 = Except.error (some e) ∧
    (Except.error (some e) : Except (Option E) Nat) ≠ Except.error none ∧
    (get_or_init s (Except.error e : Except E T)).2.1 = s ∧
    (get_or_init s (Except.error e : Except E T)).2.2 = 1 ∧
    (get (get_or_init s (Except.error e : Except E T)).2.1).1 = none := by
  simp [get_or_init, get, hslot, hp]

/-- C5: on a populated, unpoisoned container, `get_or_init` returns `Ok`
of a handle sharing the stored arc (same id, value untouched, strong count
incremented) and does not invoke the creator, whatever the creator is. -/
theorem rcs_c5 {T E : Type} (s : Sys T) (i : Nat) (creator : Except E T)
    (hslot : s.slot = some i) (hp : s.poisoned = false) :
    (get_or_init s creator).1 = Except.ok i ∧
    (get_or_init s creator).2.2 = 0 ∧
    (get_or_init s creator).2.1.slot = some i ∧
    ((get_or_init s creator).2.1.heap i).value = (s.heap i).value ∧
    ((get_or_init s creator).2.1.heap i).strong = (s.heap i).strong + 1 := by
  simp [get_or_init, hslot, hp, arcClone, updateCell]

/-- C6: on a poisoned container, `get_or_init` returns the distinguished
lock-failure error `Err(None)` — distinct from every factory error
`Err(Some e)` — does not invoke the creator, and leaves the state (in
particular the slot) unchanged. -/
theorem rcs_c6 {T E : Type} (s : Sys T) (creator : Except E T) (e : E)
    (hp : s.poisoned = true) :
    (get_or_init s creator).1 = Except.error none ∧
    (Except.error (none : Option E) : Except (Option E) Nat) ≠
      Except.error (some e) ∧
    (get_or_init s creator).2.1 = s ∧
    (get_or_init s creator).2.2 = 0 := by
  simp [get_or_init, hp]

/-- C7: `get` returns the stored handle exactly when the lock is usable
and the slot is populated; an empty slot and a poisoned lock both yield
the same `none`, so they are indistinguishable from the result. -/
theorem rcs_c7 {T : Type} (s : Sys T) :
    (get s).1 = (if s.poisoned then none else s.slot) ∧
    ((get s).1.isSome ↔ s.poisoned = false ∧ s.slot.isSome) ∧
    (s.poisoned = true → (get s).1 = none) ∧
    (s.slot = none → (get s).1 = none) := by
  unfold get
  cases hp : s.poisoned <;> cases hslot : s.slot <;> simp

/-- C8: `Clone for RCSRef` always succeeds, yields a handle on the same
arc with the strong count incremented and the value untouched, leaves the
container's slot (and the rest of the state shape) unchanged, and never
consults the mutex: its action is identical for every value of the
poisoned flag. -/
theorem rcs_c8 {T : Type} (s : Sys T) (i : Nat) :
    (cloneRef s i).1 = i ∧
    (cloneRef s i).2.slot = s.slot ∧
    (cloneRef s i).2.poisoned = s.poisoned ∧
    (cloneRef s i).2.next = s.next ∧
    ((cloneRef s i).2.heap i).strong = (s.heap i).strong + 1 ∧
    ((cloneRef s i).2.heap i).value = (s.heap i).value ∧
    (cloneRef s i).2.handles = s.handles ++ [i] ∧
    (∀ b : Bool, cloneRef { s with poisoned := b } i =
      ((cloneRef s i).1, { (cloneRef s i).2 with poisoned := b })) := by
  refine ⟨rfl, rfl, rfl, rfl, ?_, ?_, rfl, fun b => rfl⟩ <;>
    simp [cloneRef, arcClone, updateCell]

/-- C9: equality, ordering, hashing and dereferencing of handles forward
exactly to `T`'s own functions on the dereferenced values, with no
handle-local state involved; handles dereferencing to the same value
compare equal (given reflexivity of `T`'s equality, part of Rust's `Eq`
contract) and hash identically, including a clone against its original. -/
theorem rcs_c9 {T : Type} (eqT : T → T → Bool) (cmpT : T → T → Ordering)
    (hashT : T → Nat) (s : Sys T) (i j : Nat)
    (hrefl : ∀ a : T, eqT a a = true) :
    refEq eqT s i j = eqT (derefRef s i) (derefRef s j) ∧
    refCmp cmpT s i j = cmpT (derefRef s i) (derefRef s j) ∧
    refHash hashT s i = hashT (derefRef s i) ∧
    (derefRef s i = derefRef s j → refEq eqT s i j = true) ∧
    (derefRef s i = derefRef s j → refHash hashT s i = refHash hashT s j) ∧
    derefRef (cloneRef s i).2 (cloneRef s i).1 = derefRef s i ∧
    refEq eqT (cloneRef s i).2 (cloneRef s i).1 i = true ∧
    refHash hashT (cloneRef s i).2 (cloneRef s i).1 = refHash hashT s i := by
  have hclone : derefRef (cloneRef s i).2 i = derefRef s i := by
    simp [derefRef, cloneRef, arcClone, updateCell]
  refine ⟨rfl, rfl, rfl, ?_, ?_, hclone, ?_, ?_⟩
  · intro h; simp [refEq, h, hrefl]
  · intro h; simp [refHash, h]
  · have h1 : (cloneRef s i).1 = i := rfl
    simp [refEq, h1, hclone, hrefl]
  · have h1 : (cloneRef s i).1 = i := rfl
    simp [refHash, h1, hclone]

/-- Evaluation of `Drop for RCSRef` from a well-formed populated state:
dropping the handle at position `k` (pointing at arc `i`, the slot's arc,
whose strong count is `#handles + 1`) removes that handle; when it was the
last handle the value is destroyed (strong count 0, destructor run once
more) and the slot stays empty, otherwise the value survives untouched and
the slot is put back. -/
theorem dropRef_spec {T : Type} (s : Sys T) (k i : Nat)
    (hki : s.handles[k]? = some i) (hp : s.poisoned = false)
    (hslot : s.slot = some i)
    (hs : (s.heap i).strong = s.handles.length + 1)
    (hlen : 1 ≤ s.handles.length) :
    (dropRef s k).poisoned = false ∧
    (dropRef s k).next = s.next ∧
    (dropRef s k).handles = s.handles.eraseIdx k ∧
    (dropRef s k).slot = (if s.handles.length = 1 then none else some i) ∧
    ((dropRef s k).heap i).value = (s.heap i).value ∧
    ((dropRef s k).heap i).strong =
      (if s.handles.length = 1 then 0 else s.handles.length) ∧
    ((dropRef s k).heap i).drops =
      (if s.handles.length = 1 then (s.heap i).drops + 1
       else (s.heap i).drops) ∧
    (∀ j, j ≠ i → (dropRef s k).heap j = s.heap j) := by
  have hne1 : (s.heap i).strong ≠ 1 := by omega
  have hnil : s.handles ≠ [] := by
    intro h
    rw [h] at hlen
    exact absurd hlen (by simp)
  by_cases h1 : s.handles.length = 1
  · simp [dropRef, hki, hp, hslot, arcDrop, updateCell_self, hne1, hs, h1,
      hnil, updateCell, Nat.add_sub_cancel]
    intro j hj
    simp [hj]
  · simp [dropRef, hki, hp, hslot, arcDrop, updateCell_self, hne1, hs, h1,
      hnil, updateCell, Nat.add_sub_cancel]
    intro j hj
    simp [hj]

theorem inv_elim_none {T : Type} {s : Sys T} (hInv : Inv s)
    (hslot : s.slot = none) : s.handles = [] := by
  unfold Inv at hInv
  rw [hslot] at hInv
  exact hInv

theorem inv_elim_some {T : Type} {s : Sys T} {i : Nat} (hInv : Inv s)
    (hslot : s.slot = some i) :
    s.handles ≠ [] ∧ (∀ j ∈ s.handles, j = i) ∧
      (s.heap i).strong = s.handles.length + 1 := by
  unfold Inv at hInv
  rw [hslot] at hInv
  exact hInv

/-- C2: with exactly one live handle on the populated slot, dropping it
empties the slot and runs the protected value's destructor exactly once;
a following `get_or_init` with a succeeding creator invokes the creator
again and produces a fresh arc (a different id than the destroyed one)
holding the new value, while the old value stays destroyed exactly once. -/
theorem rcs_c2 {T E : Type} (s : Sys T) (i : Nat) (v : T)
    (hInv : Inv s) (hh : s.handles = [i]) (hp : s.poisoned = false)
    (hd : (s.heap i).drops = 0) (hlt : i < s.next) :
    (dropRef s 0).slot = none ∧
    (dropRef s 0).handles = [] ∧
    ((dropRef s 0).heap i).strong = 0 ∧
    ((dropRef s 0).heap i).drops = 1 ∧
    (get_or_init (dropRef s 0) (Except.ok v : Except E T)).2.2 = 1 ∧
    (get_or_init (dropRef s 0) (Except.ok v : Except E T)).1 =
      Except.ok s.next ∧
    s.next ≠ i ∧
    ((get_or_init (dropRef s 0) (Except.ok v : Except E T)).2.1.heap
      s.next).value = v ∧
    ((get_or_init (dropRef s 0) (Except.ok v : Except E T)).2.1.heap
      s.next).drops = 0 ∧
    ((get_or_init (dropRef s 0) (Except.ok v : Except E T)).2.1.heap
      i).drops = 1 := by
  have hslot : s.slot = some i := by
    cases hsl : s.slot with
    | none =>
      have h0 := inv_elim_none hInv hsl
      rw [hh] at h0
      exact absurd h0 (by simp)
    | some j =>
      obtain ⟨-, hall, -⟩ := inv_elim_some hInv hsl
      have hij : i = j := hall i (by simp [hh])
      rw [hij]
  obtain ⟨-, -, hstrong⟩ := inv_elim_some hInv hslot
  have hki : s.handles[0]? = some i := by rw [hh]; rfl
  have hlen : 1 ≤ s.handles.length := by rw [hh]; simp
  have hl1 : s.handles.length = 1 := by rw [hh]; rfl
  obtain ⟨hp', hnext', hhan', hslot', hval', hstr', hdr', hother'⟩ :=
    dropRef_spec s 0 i hki hp hslot hstrong hlen
  simp only [hl1, if_true, reduceIte] at hslot' hstr' hdr'
  rw [hh] at hhan'
  simp only [List.eraseIdx] at hhan'
  rw [hd] at hdr'
  have hne : ¬ i = s.next := by omega
  refine ⟨hslot', hhan', hstr', hdr', ?_, ?_, by omega, ?_, ?_, ?_⟩ <;>
    simp [get_or_init, hp', hslot', hnext', arcNew, arcClone, updateCell,
      hne, hdr']

/-- C3: with `n > 1` live handles on the populated slot, dropping one
leaves the protected value alive (destructor not run, strong count still
positive) and puts the same arc back in the slot, and a subsequent `get`
returns a handle to that existing value rather than `None`. -/
theorem rcs_c3 {T : Type} (s : Sys T) (i k : Nat)
    (hInv : Inv s) (hslot : s.slot = some i) (hp : s.poisoned = false)
    (hk : k < s.handles.length) (hn : 1 < s.handles.length) :
    (dropRef s k).slot = some i ∧
    ((dropRef s k).heap i).value = (s.heap i).value ∧
    ((dropRef s k).heap i).drops = (s.heap i).drops ∧
    ((dropRef s k).heap i).strong = s.handles.length ∧
    0 < ((dropRef s k).heap i).strong ∧
    (get (dropRef s k)).1 = some i := by
  obtain ⟨hne, hall, hstrong⟩ := inv_elim_some hInv hslot
  have hki : s.handles[k]? = some i := by
    rw [List.getElem?_eq_getElem hk]
    exact congrArg some (hall _ (List.getElem_mem hk))
  have hlen : 1 ≤ s.handles.length := by omega
  have hl1 : ¬ s.handles.length = 1 := by omega
  obtain ⟨hp', hnext', hhan', hslot', hval', hstr', hdr', hother'⟩ :=
    dropRef_spec s k i hki hp hslot hstrong hlen
  simp only [hl1, if_false, reduceIte] at hslot' hstr' hdr'
  refine ⟨hslot', hval', hdr', hstr', by rw [hstr']; omega, ?_⟩
  simp [get, hp', hslot']

theorem inv_get_or_init {T E : Type} (s : Sys T) (c : Except E T)
    (hInv : Inv s) (hp : s.poisoned = false) :
    Inv (get_or_init s c).2.1 := by
  cases hsl : s.slot with
  | none =>
    have hh := inv_elim_none hInv hsl
    cases c with
    | ok v =>
      simp only [get_or_init, hp, Bool.false_eq_true, if_false, hsl, arcNew,
        arcClone]
      unfold Inv
      simp [hh, updateCell]
    | error e =>
      simpa [get_or_init, hp, hsl] using hInv
  | some i =>
    obtain ⟨hne, hall, hstrong⟩ := inv_elim_some hInv hsl
    simp only [get_or_init, hp, Bool.false_eq_true, if_false, hsl, arcClone]
    unfold Inv
    refine ⟨by simp, ?_, ?_⟩
    · intro j hj
      rcases List.mem_append.1 hj with h | h
      · exact hall j h
      · simpa using h
    · simp [updateCell, hstrong]

theorem inv_get {T : Type} (s : Sys T) (hInv : Inv s)
    (hp : s.poisoned = false) : Inv (get s).2 := by
  cases hsl : s.slot with
  | none =>
    simpa [get, hp, hsl] using hInv
  | some i =>
    obtain ⟨hne, hall, hstrong⟩ := inv_elim_some hInv hsl
    simp only [get, hp, Bool.false_eq_true, if_false, hsl, arcClone]
    unfold Inv
    refine ⟨by simp, ?_, ?_⟩
    · intro j hj
      rcases List.mem_append.1 hj with h | h
      · exact hall j h
      · simpa using h
    · simp [updateCell, hstrong]

theorem inv_cloneRef {T : Type} (s : Sys T) (i : Nat) (hInv : Inv s)
    (hmem : i ∈ s.handles) : Inv (cloneRef s i).2 := by
  cases hsl : s.slot with
  | none =>
    have hh := inv_elim_none hInv hsl
    rw [hh] at hmem
    simp at hmem
  | some i0 =>
    obtain ⟨hne, hall, hstrong⟩ := inv_elim_some hInv hsl
    have hi : i = i0 := hall i hmem
    subst hi
    simp only [cloneRef, arcClone]
    unfold Inv
    simp only [hsl]
    refine ⟨by simp, ?_, ?_⟩
    · intro j hj
      rcases List.mem_append.1 hj with h | h
      · exact hall j h
      · simpa using h
    · simp [updateCell, hstrong]

theorem inv_dropRef {T : Type} (s : Sys T) (k : Nat) (hInv : Inv s)
    (hp : s.poisoned = false) (hk : k < s.handles.length) :
    Inv (dropRef s k) := by
  cases hsl : s.slot with
  | none =>
    have hh := inv_elim_none hInv hsl
    rw [hh] at hk
    simp at hk
  | some i =>
    obtain ⟨hne, hall, hstrong⟩ := inv_elim_some hInv hsl
    have hki : s.handles[k]? = some i := by
      rw [List.getElem?_eq_getElem hk]
      exact congrArg some (hall _ (List.getElem_mem hk))
    have hlen : 1 ≤ s.handles.length := by omega
    obtain ⟨hp', hnext', hhan', hslot', hval', hstr', hdr', hother'⟩ :=
      dropRef_spec s k i hki hp hsl hstrong hlen
    have herase : (s.handles.eraseIdx k).length = s.handles.length - 1 := by
      rw [List.length_eraseIdx]
      simp [hk]
    by_cases h1 : s.handles.length = 1
    · have hslot0 : (dropRef s k).slot = none := by rw [hslot']; simp [h1]
      have hhan0 : (dropRef s k).handles = [] := by
        rw [hhan']
        have h0 : (s.handles.eraseIdx k).length = 0 := by omega
        exact List.length_eq_zero.mp h0
      unfold Inv
      rw [hslot0]
      exact hhan0
    · have hslot0 : (dropRef s k).slot = some i := by rw [hslot']; simp [h1]
      have hstr0 : ((dropRef s k).heap i).strong = s.handles.length := by
        rw [hstr']
        simp [h1]
      unfold Inv
      rw [hslot0]
      refine ⟨?_, ?_, ?_⟩
      · rw [hhan']
        exact List.ne_nil_of_length_pos (by omega)
      · intro j hj
        rw [hhan'] at hj
        exact hall j (List.eraseIdx_subset _ _ hj)
      · rw [hstr0, hhan', herase]
        omega

/-- C10: the representation invariant `Inv` — live handles imply a
populated slot whose arc is the one every live handle holds, with strong
count `#handles + 1` (the container's own reference included); no live
handles imply an empty slot — is preserved by `get_or_init` (any creator),
`get`, handle `clone`, and handle `drop` on an unpoisoned container. -/
theorem rcs_c10 {T E : Type} (s : Sys T) (creator : Except E T) (i k : Nat)
    (hInv : Inv s) (hp : s.poisoned = false) :
    Inv (get_or_init s creator).2.1 ∧
    Inv (get s).2 ∧
    (i ∈ s.handles → Inv (cloneRef s i).2) ∧
    (k < s.handles.length → Inv (dropRef s k)) :=
  ⟨inv_get_or_init s creator hInv hp, inv_get s hInv hp,
   fun hmem => inv_cloneRef s i hInv hmem,
   fun hk => inv_dropRef s k hInv hp hk⟩

/-- C1 witness: first initialization of the concrete empty container. -/
theorem rcs_c1_witness :
    (get_or_init sEmpty (Except.ok 42 : Except Nat Nat)).2.2 = 1 ∧
    (get_or_init sEmpty (Except.ok 42 : Except Nat Nat)).1 =
      Except.ok sEmpty.next ∧
    (get_or_init sEmpty (Except.ok 42 : Except Nat Nat)).2.1.slot =
      some sEmpty.next ∧
    ((get_or_init sEmpty (Except.ok 42 : Except Nat Nat)).2.1.heap
      sEmpty.next).value = 42 ∧
    ((get_or_init sEmpty (Except.ok 42 : Except Nat Nat)).2.1.heap
      sEmpty.next).strong = 2 ∧
    derefRef (get_or_init sEmpty (Except.ok 42 : Except Nat Nat)).2.1
      sEmpty.next = 42 :=
  rcs_c1 sEmpty 42 rfl rfl

/-- C2 witness: dropping the only handle of the concrete one-handle
container, then reinitializing with 7. -/
theorem rcs_c2_witness :
    (dropRef sOne 0).slot = none ∧
    (dropRef sOne 0).handles = [] ∧
    ((dropRef sOne 0).heap 0).strong = 0 ∧
    ((dropRef sOne 0).heap 0).drops = 1 ∧
    (get_or_init (dropRef sOne 0) (Except.ok 7 : Except Nat Nat)).2.2 = 1 ∧
    (get_or_init (dropRef sOne 0) (Except.ok 7 : Except Nat Nat)).1 =
      Except.ok sOne.next ∧
    sOne.next ≠ 0 ∧
    ((get_or_init (dropRef sOne 0) (Except.ok 7 : Except Nat Nat)).2.1.heap
      sOne.next).value = 7 ∧
    ((get_or_init (dropRef sOne 0) (Except.ok 7 : Except Nat Nat)).2.1.heap
      sOne.next).drops = 0 ∧
    ((get_or_init (dropRef sOne 0) (Except.ok 7 : Except Nat Nat)).2.1.heap
      0).drops = 1 :=
  rcs_c2 sOne 0 7 (by decide) rfl rfl rfl (by decide)

/-- C3 witness: dropping one of the two handles of the concrete two-handle
container. -/
theorem rcs_c3_witness :
    (dropRef sTwo 0).slot = some 0 ∧
    ((dropRef sTwo 0).heap 0).value = (sTwo.heap 0).value ∧
    ((dropRef sTwo 0).heap 0).drops = (sTwo.heap 0).drops ∧
    ((dropRef sTwo 0).heap 0).strong = sTwo.handles.length ∧
    0 < ((dropRef sTwo 0).heap 0).strong ∧
    (get (dropRef sTwo 0)).1 = some 0 :=
  rcs_c3 sTwo 0 0 (by decide) rfl rfl (by decide) (by decide)

/-- C4 witness: a failing creator on the concrete empty container. -/
theorem rcs_c4_witness :
    (get_or_init sEmpty (Except.error 3 : Except Nat Nat)).1 =
      Except.error (some 3) ∧
    (Except.error (some 3) : Except (Option Nat) Nat) ≠ Except.error none ∧
    (get_or_init sEmpty (Except.error 3 : Except Nat Nat)).2.1 = sEmpty ∧
    (get_or_init sEmpty (Except.error 3 : Except Nat Nat)).2.2 = 1 ∧
    (get (get_or_init sEmpty (Except.error 3 : Except Nat Nat)).2.1).1 =
      none :=
  rcs_c4 sEmpty 3 rfl rfl

/-- C5 witness: `get_or_init` on the concrete populated container, with a
creator that would fail. -/
theorem rcs_c5_witness :
    (get_or_init sOne (Except.error 9 : Except Nat Nat)).1 = Except.ok 0 ∧
    (get_or_init sOne (Except.error 9 : Except Nat Nat)).2.2 = 0 ∧
    (get_or_init sOne (Except.error 9 : Except Nat Nat)).2.1.slot = some 0 ∧
    ((get_or_init sOne (Except.error 9 : Except Nat Nat)).2.1.heap 0).value =
      (sOne.heap 0).value ∧
    ((get_or_init sOne (Except.error 9 : Except Nat Nat)).2.1.heap 0).strong =
      (sOne.heap 0).strong + 1 :=
  rcs_c5 sOne 0 (Except.error 9) rfl rfl

/-- C6 witness: `get_or_init` on the concrete poisoned container. -/
theorem rcs_c6_witness :
    (get_or_init sPoisoned (Except.ok 1 : Except Nat Nat)).1 =
      Except.error none ∧
    (Except.error (none : Option Nat) : Except (Option Nat) Nat) ≠
      Except.error (some 3) ∧
    (get_or_init sPoisoned (Except.ok 1 : Except Nat Nat)).2.1 =
      sPoisoned ∧
    (get_or_init sPoisoned (Except.ok 1 : Except Nat Nat)).2.2 = 0 :=
  rcs_c6 sPoisoned (Except.ok 1) 3 rfl

/-- C7 witness: `get` on the concrete poisoned container. -/
theorem rcs_c7_witness :
    (get sPoisoned).1 = (if sPoisoned.poisoned then none
      else sPoisoned.slot) ∧
    ((get sPoisoned).1.isSome ↔ sPoisoned.poisoned = false ∧
      sPoisoned.slot.isSome) ∧
    (sPoisoned.poisoned = true → (get sPoisoned).1 = none) ∧
    (sPoisoned.slot = none → (get sPoisoned).1 = none) :=
  rcs_c7 sPoisoned

/-- C8 witness: cloning the handle of the concrete populated container. -/
theorem rcs_c8_witness :
    (cloneRef sOne 0).1 = 0 ∧
    (cloneRef sOne 0).2.slot = sOne.slot ∧
    (cloneRef sOne 0).2.poisoned = sOne.poisoned ∧
    (cloneRef sOne 0).2.next = sOne.next ∧
    ((cloneRef sOne 0).2.heap 0).strong = (sOne.heap 0).strong + 1 ∧
    ((cloneRef sOne 0).2.heap 0).value = (sOne.heap 0).value ∧
    (cloneRef sOne 0).2.handles = sOne.handles ++ [0] ∧
    (∀ b : Bool, cloneRef { sOne with poisoned := b } 0 =
      ((cloneRef sOne 0).1, { (cloneRef sOne 0).2 with poisoned := b })) :=
  rcs_c8 sOne 0

/-- C9 witness: forwarding of equality, ordering, hashing and dereference
on the concrete two-handle container, with `Nat`'s own operations. -/
theorem rcs_c9_witness :
    refEq (fun a b : Nat => a == b) sTwo 0 0 =
      (derefRef sTwo 0 == derefRef sTwo 0) ∧
    refCmp compare sTwo 0 0 = compare (derefRef sTwo 0) (derefRef sTwo 0) ∧
    refHash (fun a : Nat => a) sTwo 0 = derefRef sTwo 0 ∧
    (derefRef sTwo 0 = derefRef sTwo 0 →
      refEq (fun a b : Nat => a == b) sTwo 0 0 = true) ∧
    (derefRef sTwo 0 = derefRef sTwo 0 →
      refHash (fun a : Nat => a) sTwo 0 = refHash (fun a : Nat => a) sTwo 0) ∧
    derefRef (cloneRef sTwo 0).2 (cloneRef sTwo 0).1 = derefRef sTwo 0 ∧
    refEq (fun a b : Nat => a == b) (cloneRef sTwo 0).2 (cloneRef sTwo 0).1
      0 = true ∧
    refHash (fun a : Nat => a) (cloneRef sTwo 0).2 (cloneRef sTwo 0).1 =
      refHash (fun a : Nat => a) sTwo 0 :=
  rcs_c9 (fun a b : Nat => a == b) compare (fun a : Nat => a) sTwo 0 0
    (fun a => by simp)

/-- C10 witness: invariant preservation on the concrete one-handle
container under all four operations. -/
theorem rcs_c10_witness :
    Inv (get_or_init sOne (Except.ok 9 : Except Nat Nat)).2.1 ∧
    Inv (get sOne).2 ∧
    (0 ∈ sOne.handles → Inv (cloneRef sOne 0).2) ∧
    (0 < sOne.handles.length → Inv (dropRef sOne 0)) :=
  rcs_c10 sOne (Except.ok 9) 0 0 (by decide) rfl

end RCS
